import Mathlib

/-!
Shallow embedding of the chronological replay engine of the citibike
visualization (`src/utils/ChronologicalRenderer.ts`) together with the trip
record shape it consumes (`ProcessedTrip` from `src/types`).

Modelling conventions:
* JS numbers holding integral millisecond clock readings (`Date.now()`) are
  `Int`; quantities that can become fractional through JS float division
  (animation progress, the speed multiplier, the accumulated simulation-time
  offset) are `ℚ`.
* A JS object reference is modelled by an `oid : Nat` identity tag carried by
  every pooled object; `reset()` clears the data fields but of course cannot
  change the object's identity.
* `new Date(x)` truncates a fractional millisecond value toward zero
  (ECMAScript TimeClip); `ratTrunc` models that.  `Math.round` rounds half
  away from zero upward; `jsRound` models it for the non-negative channel
  values that occur here.
* `Date.prototype.getHours`/`getMinutes` are modelled in UTC.
* Fields of the renderer class that no modelled operation reads
  (`simulationStartTime`, `simulationTimeOffset`, `pausedAnimationTime`, the
  station-trip-count cache, the canvas/map handles) are omitted, as are the
  purely graphical methods (`coordsToCanvas`, `drawPath`, `render`).
-/

namespace CitiBike

/-- A processed trip record (`ProcessedTrip` in `src/types`): latitude and
longitude payloads are opaque to the engine and carried as integers. -/
structure ProcessedTrip where
  id : Nat
  startTimestamp : Int
  startLat : Int
  startLng : Int
  endLat : Int
  endLng : Int
  duration : Int
  startStationIndex : Option Int
  deriving DecidableEq

/-- A pooled active-trip slot (`ActiveTrip` in `ChronologicalRenderer.ts`). -/
structure ActiveTrip where
  oid : Nat
  trip : Option ProcessedTrip
  startTime : Int
  progress : ℚ
  animationDuration : ℚ
  deriving DecidableEq

/-- An rgb color triple; the source formats it as an `rgb(r, g, b)` string,
which the embedding keeps as the three channel values. -/
structure RGB where
  r : Int
  g : Int
  b : Int
  deriving DecidableEq

/-- A pooled completed-path slot (`CompletedPath` in
`ChronologicalRenderer.ts`). -/
structure CompletedPath where
  oid : Nat
  startLatLng : Int × Int
  endLatLng : Int × Int
  color : RGB
  opacity : ℚ
  thickness : Int
  completedAt : Int
  startStationIndex : Option Int
  deriving DecidableEq

/-- Factory `createActiveTrip`: a fresh slot with neutral fields. -/
def createActiveTrip (oid : Nat) : ActiveTrip :=
  { oid := oid, trip := none, startTime := 0, progress := 0, animationDuration := 0 }

/-- Reset method of `ActiveTrip`: clear every mutable field (identity survives). -/
def resetActiveTrip (a : ActiveTrip) : ActiveTrip :=
  { a with trip := none, startTime := 0, progress := 0, animationDuration := 0 }

/-- Factory `createCompletedPath`: a fresh slot with neutral fields. -/
def createCompletedPath (oid : Nat) : CompletedPath :=
  { oid := oid
    startLatLng := (0, 0)
    endLatLng := (0, 0)
    color := ⟨0, 0, 0⟩
    opacity := 0
    thickness := 0
    completedAt := 0
    startStationIndex := none }

/-- Reset method of `CompletedPath`: clear every mutable field (identity survives). -/
def resetCompletedPath (p : CompletedPath) : CompletedPath :=
  { p with
    startLatLng := (0, 0)
    endLatLng := (0, 0)
    color := ⟨0, 0, 0⟩
    opacity := 0
    thickness := 0
    completedAt := 0
    startStationIndex := none }

/-- Truncation toward zero, as `new Date(x)` applies to its numeric argument. -/
def ratTrunc (x : ℚ) : Int :=
  if 0 ≤ x then x.floor else x.ceil

/-- JS `Math.round`: round half upward. -/
def jsRound (x : ℚ) : Int :=
  (x + 1 / 2).floor

/-- One entry of the 24-hour color gradient table in `getTripColor`. -/
structure ColorStop where
  time : ℚ
  color : RGB
  deriving DecidableEq

/-- The color stops spanning one 24-hour cycle (`getTripColor`). -/
def colorStops : List ColorStop :=
  [⟨0, ⟨139, 92, 246⟩⟩, ⟨6, ⟨139, 92, 246⟩⟩, ⟨10, ⟨79, 70, 229⟩⟩,
   ⟨16, ⟨245, 158, 11⟩⟩, ⟨20, ⟨220, 38, 38⟩⟩, ⟨24, ⟨139, 92, 246⟩⟩]

/-- The bracketing-pair search loop of `getTripColor`: the first adjacent pair
of stops whose times enclose `td`, scanning left to right. -/
def findColorStops (td : ℚ) : List ColorStop → Option (ColorStop × ColorStop)
  | a :: b :: rest =>
    if a.time ≤ td ∧ td ≤ b.time then some (a, b) else findColorStops td (b :: rest)
  | _ => none

/-- Method `getTripColor`: time-of-day of the trip start, linearly interpolated
between the two bracketing color stops (channels rounded as JS does). -/
def getTripColor (t : ProcessedTrip) : RGB :=
  let hour : Int := (t.startTimestamp / 3600) % 24
  let minute : Int := (t.startTimestamp / 60) % 60
  let timeDecimal : ℚ := (hour : ℚ) + (minute : ℚ) / 60
  let pair := (findColorStops timeDecimal colorStops).getD
    (⟨0, ⟨139, 92, 246⟩⟩, ⟨24, ⟨139, 92, 246⟩⟩)
  let a := pair.1
  let b := pair.2
  let factor : ℚ := if b.time - a.time = 0 then 0 else (timeDecimal - a.time) / (b.time - a.time)
  { r := jsRound ((a.color.r : ℚ) + ((b.color.r : ℚ) - (a.color.r : ℚ)) * factor),
    g := jsRound ((a.color.g : ℚ) + ((b.color.g : ℚ) - (a.color.g : ℚ)) * factor),
    b := jsRound ((a.color.b : ℚ) + ((b.color.b : ℚ) - (a.color.b : ℚ)) * factor) }

/-- The fixed simulation time scale (`timeScale = 500` in the source). -/
def timeScale : ℚ := 500

/-- The mutable state of the `ChronologicalRenderer` class.  Pool free lists
are kept most-recently-released first (the source pushes and pops at the tail
of a JS array; here the head is the top of the stack).  `stationsLen` stands
for `stations.length`, the only aspect of the station list the engine reads.
`maxDisplayedTrips` is the `MAX_DISPLAYED_TRIPS` capacity, `100` in the
source's declaration.  `nextOid` is the identity-allocation counter of the
object model. -/
structure ChronologicalRenderer where
  allTrips : List ProcessedTrip
  stationsLen : Nat
  selectedStationIndices : Finset Int
  filteredTrips : List ProcessedTrip
  activeTrips : List ActiveTrip
  completedPaths : List CompletedPath
  currentTripIndex : Nat
  simulationTime : ℚ
  maxDisplayedTrips : Nat
  totalTripsStarted : Nat
  isRunning : Bool
  lastUpdateTime : Int
  animationTime : Int
  animationStartTime : Int
  activeTripPool : List ActiveTrip
  completedPathPool : List CompletedPath
  nextOid : Nat
  deriving DecidableEq

namespace ChronologicalRenderer

/-- Pool operation `activeTripPool.acquire()`: pop the free list, else create a fresh slot. -/
def acquireActive (s : ChronologicalRenderer) : ActiveTrip × ChronologicalRenderer :=
  match s.activeTripPool with
  | [] => (createActiveTrip s.nextOid, { s with nextOid := s.nextOid + 1 })
  | a :: rest => (a, { s with activeTripPool := rest })

/-- Pool operation `completedPathPool.acquire()`: pop the free list, else create a fresh
slot. -/
def acquireCompleted (s : ChronologicalRenderer) : CompletedPath × ChronologicalRenderer :=
  match s.completedPathPool with
  | [] => (createCompletedPath s.nextOid, { s with nextOid := s.nextOid + 1 })
  | p :: rest => (p, { s with completedPathPool := rest })

/-- The per-trip predicate of `_applyStationFilter`: a defined, in-range,
currently selected origin station index. -/
def tripPassesFilter (stationsLen : Nat) (sel : Finset Int) (t : ProcessedTrip) : Bool :=
  match t.startStationIndex with
  | some i => decide (0 ≤ i) && decide (i < (stationsLen : Int)) && decide (i ∈ sel)
  | none => false

/-- Method `_applyStationFilter`: recompute `filteredTrips` from `allTrips`; an empty
selection or a selection of every station means no filtering. -/
def applyStationFilter (s : ChronologicalRenderer) : ChronologicalRenderer :=
  if s.selectedStationIndices.card = 0 ∨ s.selectedStationIndices.card = s.stationsLen then
    { s with filteredTrips := s.allTrips }
  else
    { s with filteredTrips :=
        s.allTrips.filter (tripPassesFilter s.stationsLen s.selectedStationIndices) }

/-- The keep test of `_filterActiveTripsAndPaths` for an active slot: a
non-null trip whose defined origin is currently selected. -/
def keepActive (sel : Finset Int) (a : ActiveTrip) : Bool :=
  match a.trip with
  | some t =>
    match t.startStationIndex with
    | some i => decide (i ∈ sel)
    | none => false
  | none => false

/-- The keep test of `_filterActiveTripsAndPaths` for a completed path: a
defined origin that is currently selected. -/
def keepPath (sel : Finset Int) (p : CompletedPath) : Bool :=
  match p.startStationIndex with
  | some i => decide (i ∈ sel)
  | none => false

/-- Method `_filterActiveTripsAndPaths`: each `forEach` loop keeps the passing slots
in order and releases the failing ones to their pool in order, so the pool
stack receives the rejected slots, reset, newest on top. -/
def filterActiveTripsAndPaths (s : ChronologicalRenderer) : ChronologicalRenderer :=
  { s with
    activeTrips := s.activeTrips.filter (keepActive s.selectedStationIndices)
    completedPaths := s.completedPaths.filter (keepPath s.selectedStationIndices)
    activeTripPool :=
      ((s.activeTrips.filter (fun a => !keepActive s.selectedStationIndices a)).map
        resetActiveTrip).reverse ++ s.activeTripPool
    completedPathPool :=
      ((s.completedPaths.filter (fun p => !keepPath s.selectedStationIndices p)).map
        resetCompletedPath).reverse ++ s.completedPathPool }

/-- The index-relocation loop of `setSelectedStations`: starting at zero it
sets `newTripIndex := i + 1` while `trips[i].startTimestamp * 1000` is at most
the current simulation time, and breaks at the first later trip, so it ends at
the length of the due initial segment. -/
def adjustTripIndex (trips : List ProcessedTrip) (currentSimTime : ℚ) : Nat :=
  (trips.takeWhile (fun t => decide (((t.startTimestamp * 1000 : Int) : ℚ) ≤ currentSimTime))).length

/-- Method `setSelectedStations(indices)`: record the selection, refilter the feed,
prune the active set and the completed buffer, relocate the forward pointer
when playback has progressed, and re-anchor the real-time sample when the
engine was running (`now` models the `Date.now()` read). -/
def setSelectedStations (s : ChronologicalRenderer) (indices : Finset Int) (now : Int) :
    ChronologicalRenderer :=
  let wasRunning := s.isRunning
  let simulationTimeBeforeFilter := s.simulationTime
  let s1 := applyStationFilter { s with selectedStationIndices := indices }
  let s2 := filterActiveTripsAndPaths s1
  let s3 :=
    match s2.filteredTrips with
    | [] => s2
    | t0 :: _ =>
      if 0 < simulationTimeBeforeFilter then
        let currentSimTime : ℚ :=
          ((t0.startTimestamp * 1000 : Int) : ℚ) + simulationTimeBeforeFilter
        { s2 with currentTripIndex := adjustTripIndex s2.filteredTrips currentSimTime }
      else s2
  if wasRunning then { s3 with isRunning := true, lastUpdateTime := now } else s3

/-- Method `initializeWithData(trips, stations)`: install the feed, select every
station, filter, and rewind the forward pointer. -/
def initializeWithData (s : ChronologicalRenderer) (trips : List ProcessedTrip)
    (stationsLen : Nat) : ChronologicalRenderer :=
  let s1 := applyStationFilter
    { s with
      allTrips := trips
      stationsLen := stationsLen
      selectedStationIndices := (Finset.range stationsLen).image Int.ofNat }
  { s1 with currentTripIndex := 0 }

/-- Method `startSimulation()`: a true restart when the simulated offset is zero,
otherwise a resume that re-anchors the animation origin. -/
def startSimulation (s : ChronologicalRenderer) (now : Int) : ChronologicalRenderer :=
  if s.simulationTime = 0 then
    { s with
      currentTripIndex := 0
      activeTrips := []
      completedPaths := []
      simulationTime := 0
      totalTripsStarted := 0
      animationTime := 0
      animationStartTime := now
      isRunning := true
      lastUpdateTime := now }
  else
    { s with
      animationStartTime := now - s.animationTime
      isRunning := true
      lastUpdateTime := now }

/-- Method `pause()`: clear the running flag; the animation clock freezes because
`animationStartTime` is left alone and no longer advanced against. -/
def pause (s : ChronologicalRenderer) : ChronologicalRenderer :=
  { s with isRunning := false }

/-- Method `resume()`: set the running flag, re-sample real time, and re-anchor the
animation origin to `now - animationTime`. -/
def resume (s : ChronologicalRenderer) (now : Int) : ChronologicalRenderer :=
  { s with
    isRunning := true
    lastUpdateTime := now
    animationStartTime := now - s.animationTime }

/-- Method `reset()`: release every active slot and completed path to its pool and
zero all counters and clocks. -/
def reset (s : ChronologicalRenderer) : ChronologicalRenderer :=
  { s with
    activeTripPool := ((s.activeTrips.map resetActiveTrip).reverse) ++ s.activeTripPool
    completedPathPool := ((s.completedPaths.map resetCompletedPath).reverse) ++ s.completedPathPool
    currentTripIndex := 0
    activeTrips := []
    completedPaths := []
    simulationTime := 0
    totalTripsStarted := 0
    isRunning := false
    animationTime := 0
    animationStartTime := 0
    lastUpdateTime := 0 }

/-- The robust origin check at the top of `startTrip`: a defined, in-range,
currently selected origin station index. -/
def canStartTrip (s : ChronologicalRenderer) (t : ProcessedTrip) : Bool :=
  match t.startStationIndex with
  | some i =>
    decide (0 ≤ i) && decide (i < (s.stationsLen : Int)) && decide (i ∈ s.selectedStationIndices)
  | none => false

/-- Method `startTrip(trip)`: skip trips failing the origin check; otherwise acquire
a pooled slot, fill it, and append it to the active list.  The animation
duration compresses the real trip duration by 10 and clamps it to the window
from 1000 to 5000 milliseconds. -/
def startTrip (s : ChronologicalRenderer) (t : ProcessedTrip) : ChronologicalRenderer :=
  if canStartTrip s t then
    let animationDuration : ℚ := max 1000 (min 5000 ((t.duration : ℚ) / 10))
    let acq := acquireActive s
    let slot :=
      { acq.1 with
        trip := some t
        startTime := acq.2.animationTime
        progress := 0
        animationDuration := animationDuration }
    { acq.2 with activeTrips := acq.2.activeTrips ++ [slot] }
  else s

/-- The completed-buffer enqueue of `updateActiveTrips` with its FIFO cap:
push the new path, and if the buffer now exceeds `MAX_DISPLAYED_TRIPS` shift
off the oldest entry and release it to the pool. -/
def pushCompletedCapped (s : ChronologicalRenderer) (p : CompletedPath) :
    ChronologicalRenderer :=
  let s1 := { s with completedPaths := s.completedPaths ++ [p] }
  if s1.maxDisplayedTrips < s1.completedPaths.length then
    match s1.completedPaths with
    | [] => s1
    | oldest :: remaining =>
      { s1 with
        completedPaths := remaining
        completedPathPool := resetCompletedPath oldest :: s1.completedPathPool }
  else s1

/-- One step of the `activeTrips.filter` callback in `updateActiveTrips`,
with `s.activeTrips` holding the slots kept so far: recompute the slot's
progress from the frozen-or-advanced animation clock; on completion convert
it into a pooled completed path (the source reads the trip through a non-null
assertion, which is total for every slot `startTrip` creates), enqueue it
under the FIFO cap and release the slot; otherwise keep the slot. -/
def processActive (s : ChronologicalRenderer) (a : ActiveTrip) : ChronologicalRenderer :=
  let elapsed : ℚ := ((s.animationTime - a.startTime : Int) : ℚ)
  let a1 := { a with progress := min 1 (elapsed / a.animationDuration) }
  if 1 ≤ a1.progress then
    let t := a1.trip.getD (ProcessedTrip.mk 0 0 0 0 0 0 0 none)
    let acq := acquireCompleted s
    let p :=
      { acq.1 with
        startLatLng := (t.startLat, t.startLng)
        endLatLng := (t.endLat, t.endLng)
        color := getTripColor t
        opacity := 6 / 10
        thickness := 2
        completedAt := acq.2.animationTime
        startStationIndex := t.startStationIndex }
    let s2 := { acq.2 with activeTripPool := resetActiveTrip a1 :: acq.2.activeTripPool }
    pushCompletedCapped s2 p
  else
    { s with activeTrips := s.activeTrips ++ [a1] }

/-- The traversal of the former active list by `updateActiveTrips`. -/
def runActiveLoop (s : ChronologicalRenderer) : List ActiveTrip → ChronologicalRenderer
  | [] => s
  | a :: rest => runActiveLoop (processActive s a) rest

/-- Method `updateActiveTrips()`: advance the animation clock only while running,
then rebuild the active list, completing every slot whose progress reached
one. -/
def updateActiveTrips (s : ChronologicalRenderer) (now : Int) : ChronologicalRenderer :=
  let s0 := if s.isRunning then { s with animationTime := now - s.animationStartTime } else s
  runActiveLoop { s0 with activeTrips := [] } s0.activeTrips

/-- Whether a trip is due at simulated time `t` (`tripStartTime <=
currentSimTime.getTime()`). -/
def tripDue (t : ProcessedTrip) (currentSimTime : Int) : Bool :=
  decide (t.startTimestamp * 1000 ≤ currentSimTime)

/-- Result of the while loop of `updateSimulation` that consumes due trips:
the updated state, the list of consumed trips (each advanced the forward
pointer and both counters), and — as pure instrumentation — the sublist of
consumed trips for which `startTrip` actually created an active slot. -/
structure ConsumeOutcome where
  state : ChronologicalRenderer
  consumed : List ProcessedTrip
  started : List ProcessedTrip
  deriving DecidableEq

/-- The while loop of `updateSimulation` over the filtered feed from the
forward pointer on: as long as the next trip is due, start it and advance
`currentTripIndex`, `totalTripsStarted` and the per-tick counter. -/
def consumeDue (currentSimTime : Int) :
    ChronologicalRenderer → List ProcessedTrip → ConsumeOutcome
  | s, [] => ⟨s, [], []⟩
  | s, t :: rest =>
    if tripDue t currentSimTime then
      let s1 := startTrip s t
      let s2 :=
        { s1 with
          currentTripIndex := s1.currentTripIndex + 1
          totalTripsStarted := s1.totalTripsStarted + 1 }
      let out := consumeDue currentSimTime s2 rest
      ⟨out.state, t :: out.consumed,
        if canStartTrip s t then t :: out.started else out.started⟩
    else ⟨s, [], []⟩

/-- The per-tick result of `updateSimulation`: the `Date` it returns (a
millisecond time value) and the number of trips consumed this tick. -/
structure UpdateResult where
  currentSimTime : Int
  tripsStarted : Nat
  deriving DecidableEq

/-- Outcome of `updateSimulation` together with the activation instrumentation of
`consumeDue`. -/
structure UpdateOutcome where
  result : UpdateResult
  state : ChronologicalRenderer
  started : List ProcessedTrip
  deriving DecidableEq

/-- Method `updateSimulation(speed)` at real clock reading `now`: bail out on an
empty filtered feed; otherwise advance the simulated offset by real elapsed
time times scale times speed while running, convert the offset to an absolute
simulated `Date` anchored at the first filtered trip, consume every due trip
while running, and finally update the active trips. -/
def updateSimulation (s : ChronologicalRenderer) (speed : ℚ) (now : Int) : UpdateOutcome :=
  match s.filteredTrips with
  | [] => ⟨⟨now, 0⟩, s, []⟩
  | t0 :: _ =>
    let s1 :=
      if s.isRunning then
        { s with
          simulationTime := s.simulationTime + ((now - s.lastUpdateTime : Int) : ℚ) * timeScale * speed
          lastUpdateTime := now }
      else s
    let currentSimTime : Int := ratTrunc (((t0.startTimestamp * 1000 : Int) : ℚ) + s1.simulationTime)
    let afterStarts :=
      if s1.isRunning then
        consumeDue currentSimTime s1 (s1.filteredTrips.drop s1.currentTripIndex)
      else ⟨s1, [], []⟩
    let s3 := updateActiveTrips afterStarts.state now
    ⟨⟨currentSimTime, afterStarts.consumed.length⟩, s3, afterStarts.started⟩

/-- The record returned by `getStats()` (the `filteredTrips` array itself and
the raw pool references are exposed too in the source; the embedding keeps
the numeric fields). -/
structure Stats where
  totalTrips : Nat
  currentTripIndex : Nat
  totalTripsStarted : Nat
  activeTrips : Nat
  completedPaths : Nat
  displayedTrips : Nat
  progress : ℚ
  activeTripPoolSize : Nat
  completedPathPoolSize : Nat
  totalAvailableTrips : Nat
  selectedStations : Nat
  totalStations : Nat
  deriving DecidableEq

/-- Method `getStats()`. -/
def getStats (s : ChronologicalRenderer) : Stats :=
  { totalTrips := s.filteredTrips.length
    currentTripIndex := s.currentTripIndex
    totalTripsStarted := s.totalTripsStarted
    activeTrips := s.activeTrips.length
    completedPaths := s.completedPaths.length
    displayedTrips := s.activeTrips.length + s.completedPaths.length
    progress :=
      if 0 < s.filteredTrips.length then
        (s.currentTripIndex : ℚ) / (s.filteredTrips.length : ℚ)
      else 0
    activeTripPoolSize := s.activeTripPool.length
    completedPathPoolSize := s.completedPathPool.length
    totalAvailableTrips := s.filteredTrips.length
    selectedStations := s.selectedStationIndices.card
    totalStations := s.stationsLen }

end ChronologicalRenderer

/-- An externally triggered engine operation, each carrying the `Date.now()`
reading in effect when it runs. -/
inductive EngineOp where
  | start (now : Int)
  | update (speed : ℚ) (now : Int)
  | pause
  | resume (now : Int)
  | setStations (indices : Finset Int) (now : Int)
  deriving DecidableEq

/-- Apply one operation, returning the new state and the trips that became
active during it. -/
def applyOp (s : ChronologicalRenderer) : EngineOp → ChronologicalRenderer × List ProcessedTrip
  | .start now => (s.startSimulation now, [])
  | .update speed now =>
    let out := s.updateSimulation speed now
    (out.state, out.started)
  | .pause => (s.pause, [])
  | .resume now => (s.resume now, [])
  | .setStations indices now => (s.setSelectedStations indices now, [])

/-- Run a sequence of operations, concatenating the activation logs. -/
def runOps (s : ChronologicalRenderer) : List EngineOp → ChronologicalRenderer × List ProcessedTrip
  | [] => (s, [])
  | op :: ops =>
    let step := applyOp s op
    let rest := runOps step.1 ops
    (rest.1, step.2 ++ rest.2)

/-- The operations of pure replay: clock updates and pause and resume, with
no filter change. -/
def isReplayOp : EngineOp → Bool
  | .update _ _ => true
  | .pause => true
  | .resume _ => true
  | _ => false

/-- A freshly constructed renderer; the constructor pre-populates the two
pools (`initialSize` is an `ObjectPool` constructor parameter, passed as 100
and 500 by the renderer), most recently created on top of the stack. -/
def mkRenderer (activeInit completedInit : Nat) : ChronologicalRenderer :=
  { allTrips := []
    stationsLen := 0
    selectedStationIndices := ∅
    filteredTrips := []
    activeTrips := []
    completedPaths := []
    currentTripIndex := 0
    simulationTime := 0
    maxDisplayedTrips := 100
    totalTripsStarted := 0
    isRunning := false
    lastUpdateTime := 0
    animationTime := 0
    animationStartTime := 0
    activeTripPool := ((List.range activeInit).map createActiveTrip).reverse
    completedPathPool :=
      ((List.range completedInit).map (fun i => createCompletedPath (activeInit + i))).reverse
    nextOid := activeInit + completedInit }

namespace ChronologicalRenderer

/-- Observer: the simulated offset after one running tick (real elapsed time
times `timeScale` times `speed` added to the previous offset). -/
def tickSimTime (s : ChronologicalRenderer) (speed : ℚ) (now : Int) : ℚ :=
  s.simulationTime + ((now - s.lastUpdateTime : Int) : ℚ) * timeScale * speed

/-- Observer: the millisecond value of the simulated `Date` a tick reports,
anchored at the first filtered trip. -/
def tickDate (t0 : ProcessedTrip) (simT : ℚ) : Int :=
  ratTrunc (((t0.startTimestamp * 1000 : Int) : ℚ) + simT)

/-- Observer: the run of due not-yet-consumed trips at simulated millisecond
time `T`, in feed order from the forward pointer. -/
def dueSegment (s : ChronologicalRenderer) (T : Int) : List ProcessedTrip :=
  (s.filteredTrips.drop s.currentTripIndex).takeWhile (fun t => tripDue t T)

end ChronologicalRenderer

/-- Trips are listed ascending by start timestamp. -/
def SortedFeed (l : List ProcessedTrip) : Prop :=
  List.Pairwise (fun a b => a.startTimestamp ≤ b.startTimestamp) l

/-- Concrete demo trips: Scenario A of the spec, one station, trip `A` at
zero seconds and trip `B` ten seconds later. -/
def demoTripA : ProcessedTrip := ⟨0, 0, 1, 2, 3, 4, 600000, some 0⟩

/-- Scenario A second trip. -/
def demoTripB : ProcessedTrip := ⟨1, 10, 5, 6, 7, 8, 600000, some 0⟩

/-- Scenario A initial state: data loaded, started at real time 1000. -/
def scenarioA : ChronologicalRenderer :=
  ((mkRenderer 2 2).initializeWithData [demoTripA, demoTripB] 1).startSimulation 1000

/-- A trip from origin station 0 at timestamp 0 over two stations. -/
def xTripW : ProcessedTrip := ⟨10, 0, 0, 0, 0, 0, 600000, some 0⟩

/-- A trip from origin station 0 at timestamp 35. -/
def xTripQ : ProcessedTrip := ⟨11, 35, 0, 0, 0, 0, 600000, some 0⟩

/-- A trip from origin station 1 at timestamp 40. -/
def xTripP : ProcessedTrip := ⟨12, 40, 0, 0, 0, 0, 600000, some 1⟩

/-- The renderer initialized with the three trips above over two stations. -/
def orderBreakInit : ChronologicalRenderer :=
  (mkRenderer 2 2).initializeWithData [xTripW, xTripQ, xTripP] 2

/-- An operation sequence whose filter change makes a later-activated trip
precede an earlier-activated one in timestamp: select station 1, play until
simulated offset 30000 ms (activating the timestamp-40 trip), then select
station 0 and play on (activating the timestamp-35 trip). -/
def orderBreakOps : List EngineOp :=
  [.setStations {1} 500, .start 1000, .update 1 1060, .setStations {0} 2000, .update 1 2010]

/-- Two trips from origin station 0, at timestamps 0 and 50, two stations. -/
def idleTrip0 : ProcessedTrip := ⟨20, 0, 0, 0, 0, 0, 600000, some 0⟩

/-- The timestamp-50 trip of the idle-feed scenario. -/
def idleTrip1 : ProcessedTrip := ⟨21, 50, 0, 0, 0, 0, 600000, some 0⟩

/-- Start the two-trip feed, consume the first trip, then select the station
with no trips: the filtered feed becomes empty while the started counter
stays at one. -/
def idleState : ChronologicalRenderer :=
  (runOps ((mkRenderer 2 2).initializeWithData [idleTrip0, idleTrip1] 2)
    [.start 1000, .update 1 1001, .setStations {1} 1500]).1

/-- Trips T1, T2, T3 of Scenario B (distinguishable endpoints). -/
def evictTrip1 : ProcessedTrip := ⟨31, 0, 101, 102, 103, 104, 20000, some 0⟩

/-- Scenario B trip T2. -/
def evictTrip2 : ProcessedTrip := ⟨32, 1, 201, 202, 203, 204, 20000, some 0⟩

/-- Scenario B trip T3. -/
def evictTrip3 : ProcessedTrip := ⟨33, 2, 301, 302, 303, 304, 20000, some 0⟩

/-- Scenario B state: capacity two, three active slots whose animations (2000
ms each, begun at animation times 0, 100 and 200) will all complete at the
coming tick, so they complete in order T1, T2, T3.  The completed-path pool
holds three free slots with identities 0, 1, 2, top first oid 2. -/
def evictState : ChronologicalRenderer :=
  { mkRenderer 0 3 with
    stationsLen := 1
    selectedStationIndices := {0}
    allTrips := [evictTrip1, evictTrip2, evictTrip3]
    filteredTrips := [evictTrip1, evictTrip2, evictTrip3]
    activeTrips :=
      [⟨100, some evictTrip1, 0, 0, 2000⟩, ⟨101, some evictTrip2, 100, 0, 2000⟩,
       ⟨102, some evictTrip3, 200, 0, 2000⟩]
    maxDisplayedTrips := 2
    isRunning := true
    currentTripIndex := 3
    totalTripsStarted := 3
    lastUpdateTime := 5000 }

/-- A trip record with no origin station index, as real feeds contain. -/
def orphanTrip : ProcessedTrip := ⟨40, 0, 0, 0, 0, 0, 600000, none⟩

/-- A renderer whose unfiltered feed contains only the orphan trip, running. -/
def orphanState : ChronologicalRenderer :=
  ((mkRenderer 1 1).initializeWithData [orphanTrip] 1).startSimulation 1000

/-- The three-trip feed played under the station-1 filter up to simulated
offset 30000 ms: playback has progressed, so a later filter change relocates
the forward pointer. -/
def relocState : ChronologicalRenderer :=
  (runOps orderBreakInit [.setStations {1} 500, .start 1000, .update 1 1060]).1

/-- The idle (fully-filtered-out) state after re-selecting station 0. -/
def idleStateBack : ChronologicalRenderer :=
  idleState.setSelectedStations {0} 2000

/-- Scenario A advanced one tick and paused. -/
def pausedDemoState : ChronologicalRenderer :=
  (scenarioA.updateSimulation 1 1020).state.pause

/-- A capacity-one renderer with one buffered completed path, for exercising
the FIFO cap directly. -/
def capDemoState : ChronologicalRenderer :=
  { mkRenderer 0 0 with
    completedPaths := [createCompletedPath 7]
    maxDisplayedTrips := 1 }

/-- A fresh completed path for exercising the FIFO cap. -/
def capDemoPath : CompletedPath := createCompletedPath 8

/-- All fields of the renderer other than the active list, the completed
buffer, the two pool stacks and the identity counter agree — the frame the
`updateActiveTrips` traversal leaves untouched. -/
def FrameEq (s' s : ChronologicalRenderer) : Prop :=
  s'.filteredTrips = s.filteredTrips ∧
  s'.currentTripIndex = s.currentTripIndex ∧
  s'.totalTripsStarted = s.totalTripsStarted ∧
  s'.simulationTime = s.simulationTime ∧
  s'.isRunning = s.isRunning ∧
  s'.lastUpdateTime = s.lastUpdateTime ∧
  s'.animationTime = s.animationTime ∧
  s'.animationStartTime = s.animationStartTime ∧
  s'.selectedStationIndices = s.selectedStationIndices ∧
  s'.stationsLen = s.stationsLen ∧
  s'.maxDisplayedTrips = s.maxDisplayedTrips ∧
  s'.allTrips = s.allTrips

/-- The completed-path buffer respects the `MAX_DISPLAYED_TRIPS` capacity. -/
def CompletedWithinCap (s : ChronologicalRenderer) : Prop :=
  s.completedPaths.length ≤ s.maxDisplayedTrips

instance (l : List ProcessedTrip) : Decidable (SortedFeed l) :=
  inferInstanceAs (Decidable (List.Pairwise _ l))

instance (s : ChronologicalRenderer) : Decidable (CompletedWithinCap s) :=
  inferInstanceAs (Decidable (_ ≤ _))

end CitiBike
namespace CitiBike
namespace ChronologicalRenderer

theorem frameEq_refl (s : ChronologicalRenderer) : FrameEq s s :=
  ⟨rfl, rfl, rfl, rfl, rfl, rfl, rfl, rfl, rfl, rfl, rfl, rfl⟩

theorem frameEq_trans {a b c : ChronologicalRenderer} (h1 : FrameEq a b) (h2 : FrameEq b c) :
    FrameEq a c := by
  obtain ⟨a1, a2, a3, a4, a5, a6, a7, a8, a9, a10, a11, a12⟩ := h1
  obtain ⟨b1, b2, b3, b4, b5, b6, b7, b8, b9, b10, b11, b12⟩ := h2
  exact ⟨a1.trans b1, a2.trans b2, a3.trans b3, a4.trans b4, a5.trans b5, a6.trans b6,
    a7.trans b7, a8.trans b8, a9.trans b9, a10.trans b10, a11.trans b11, a12.trans b12⟩

theorem startTrip_frame (s : ChronologicalRenderer) (t : ProcessedTrip) :
    FrameEq (startTrip s t) s ∧
    (startTrip s t).completedPaths = s.completedPaths ∧
    (startTrip s t).completedPathPool = s.completedPathPool := by
  unfold startTrip acquireActive
  dsimp only
  split
  · split
    · exact ⟨⟨rfl, rfl, rfl, rfl, rfl, rfl, rfl, rfl, rfl, rfl, rfl, rfl⟩, rfl, rfl⟩
    · exact ⟨⟨rfl, rfl, rfl, rfl, rfl, rfl, rfl, rfl, rfl, rfl, rfl, rfl⟩, rfl, rfl⟩
  · exact ⟨frameEq_refl s, rfl, rfl⟩

theorem startTrip_activeTrips_map (s : ChronologicalRenderer) (t : ProcessedTrip) :
    (startTrip s t).activeTrips.map (fun a => a.trip) =
      s.activeTrips.map (fun a => a.trip) ++ (if canStartTrip s t then [some t] else []) := by
  unfold startTrip acquireActive
  dsimp only
  split
  · rename_i h
    split
    · simp [h]
    · simp [h]
  · rename_i h
    simp [h]

theorem canStartTrip_congr {s' s : ChronologicalRenderer}
    (h1 : s'.stationsLen = s.stationsLen)
    (h2 : s'.selectedStationIndices = s.selectedStationIndices) :
    canStartTrip s' = canStartTrip s := by
  funext t
  unfold canStartTrip
  rw [h1, h2]

theorem consumeDue_consumed (T : Int) :
    ∀ (rest : List ProcessedTrip) (s : ChronologicalRenderer),
      (consumeDue T s rest).consumed = rest.takeWhile (fun t => tripDue t T) := by
  intro rest
  induction rest with
  | nil => intro s; rfl
  | cons t ts ih =>
    intro s
    by_cases h : tripDue t T
    · simp [consumeDue, h, List.takeWhile_cons, ih]
    · simp [consumeDue, h, List.takeWhile_cons]

theorem consumeDue_started (T : Int) :
    ∀ (rest : List ProcessedTrip) (s : ChronologicalRenderer),
      (consumeDue T s rest).started =
        (rest.takeWhile (fun t => tripDue t T)).filter (canStartTrip s) := by
  intro rest
  induction rest with
  | nil => intro s; rfl
  | cons t ts ih =>
    intro s
    by_cases h : tripDue t T
    · have hcongr : canStartTrip
          { startTrip s t with
            currentTripIndex := (startTrip s t).currentTripIndex + 1
            totalTripsStarted := (startTrip s t).totalTripsStarted + 1 } = canStartTrip s := by
        refine canStartTrip_congr ?_ ?_
        · exact ((startTrip_frame s t).1).2.2.2.2.2.2.2.2.2.1
        · exact ((startTrip_frame s t).1).2.2.2.2.2.2.2.2.1
      by_cases hc : canStartTrip s t
      · simp [consumeDue, h, hc, List.takeWhile_cons, ih, hcongr]
      · simp [consumeDue, h, hc, List.takeWhile_cons, ih, hcongr]
    · simp [consumeDue, h, List.takeWhile_cons]


theorem consumeDue_preserved (T : Int) :
    ∀ (rest : List ProcessedTrip) (s : ChronologicalRenderer),
      (consumeDue T s rest).state.filteredTrips = s.filteredTrips ∧
      (consumeDue T s rest).state.simulationTime = s.simulationTime ∧
      (consumeDue T s rest).state.isRunning = s.isRunning ∧
      (consumeDue T s rest).state.lastUpdateTime = s.lastUpdateTime ∧
      (consumeDue T s rest).state.animationTime = s.animationTime ∧
      (consumeDue T s rest).state.animationStartTime = s.animationStartTime ∧
      (consumeDue T s rest).state.selectedStationIndices = s.selectedStationIndices ∧
      (consumeDue T s rest).state.stationsLen = s.stationsLen ∧
      (consumeDue T s rest).state.maxDisplayedTrips = s.maxDisplayedTrips ∧
      (consumeDue T s rest).state.allTrips = s.allTrips ∧
      (consumeDue T s rest).state.completedPaths = s.completedPaths ∧
      (consumeDue T s rest).state.completedPathPool = s.completedPathPool := by
  intro rest
  induction rest with
  | nil =>
    intro s
    exact ⟨rfl, rfl, rfl, rfl, rfl, rfl, rfl, rfl, rfl, rfl, rfl, rfl⟩
  | cons t ts ih =>
    intro s
    by_cases h : tripDue t T
    · obtain ⟨f1, f2, f3, f4, f5, f6, f7, f8, f9, f10, f11, f12⟩ := (startTrip_frame s t).1
      have hcp := (startTrip_frame s t).2.1
      have hcpp := (startTrip_frame s t).2.2
      obtain ⟨g1, g2, g3, g4, g5, g6, g7, g8, g9, g10, g11, g12⟩ :=
        ih { startTrip s t with
          currentTripIndex := (startTrip s t).currentTripIndex + 1
          totalTripsStarted := (startTrip s t).totalTripsStarted + 1 }
      simp only [consumeDue, h, if_true, if_pos]
      exact ⟨g1.trans f1, g2.trans f4, g3.trans f5, g4.trans f6, g5.trans f7, g6.trans f8,
        g7.trans f9, g8.trans f10, g9.trans f11, g10.trans f12, g11.trans hcp, g12.trans hcpp⟩
    · simp only [consumeDue, h, if_false]
      exact ⟨rfl, rfl, rfl, rfl, rfl, rfl, rfl, rfl, rfl, rfl, rfl, rfl⟩

theorem consumeDue_counters (T : Int) :
    ∀ (rest : List ProcessedTrip) (s : ChronologicalRenderer),
      (consumeDue T s rest).state.currentTripIndex =
        s.currentTripIndex + (rest.takeWhile (fun t => tripDue t T)).length ∧
      (consumeDue T s rest).state.totalTripsStarted =
        s.totalTripsStarted + (rest.takeWhile (fun t => tripDue t T)).length := by
  intro rest
  induction rest with
  | nil => intro s; exact ⟨rfl, rfl⟩
  | cons t ts ih =>
    intro s
    by_cases h : tripDue t T
    · obtain ⟨f1, f2, f3, f4, f5, f6, f7, f8, f9, f10, f11, f12⟩ := (startTrip_frame s t).1
      obtain ⟨g1, g2⟩ :=
        ih { startTrip s t with
          currentTripIndex := (startTrip s t).currentTripIndex + 1
          totalTripsStarted := (startTrip s t).totalTripsStarted + 1 }
      simp only [consumeDue, h, if_true, if_pos, List.takeWhile_cons]
      constructor
      · simp only [h, if_pos, List.length_cons]
        rw [g1]
        simp only [ChronologicalRenderer.currentTripIndex]
        rw [f2]
        omega
      · simp only [h, if_pos, List.length_cons]
        rw [g2]
        simp only [ChronologicalRenderer.totalTripsStarted]
        rw [f3]
        omega
    · simp [consumeDue, h, List.takeWhile_cons]


theorem consumeDue_activeTrips_map (T : Int) :
    ∀ (rest : List ProcessedTrip) (s : ChronologicalRenderer),
      (consumeDue T s rest).state.activeTrips.map (fun a => a.trip) =
        s.activeTrips.map (fun a => a.trip) ++
          (((rest.takeWhile (fun t => tripDue t T)).filter (canStartTrip s)).map some) := by
  intro rest
  induction rest with
  | nil => intro s; simp [consumeDue]
  | cons t ts ih =>
    intro s
    by_cases h : tripDue t T
    · have hcongr : canStartTrip
          { startTrip s t with
            currentTripIndex := (startTrip s t).currentTripIndex + 1
            totalTripsStarted := (startTrip s t).totalTripsStarted + 1 } = canStartTrip s := by
        refine canStartTrip_congr ?_ ?_
        · exact ((startTrip_frame s t).1).2.2.2.2.2.2.2.2.2.1
        · exact ((startTrip_frame s t).1).2.2.2.2.2.2.2.2.1
      have hg := ih { startTrip s t with
          currentTripIndex := (startTrip s t).currentTripIndex + 1
          totalTripsStarted := (startTrip s t).totalTripsStarted + 1 }
      simp only [consumeDue, h, if_true, if_pos]
      rw [hg, hcongr]
      have hact : ({ startTrip s t with
          currentTripIndex := (startTrip s t).currentTripIndex + 1
          totalTripsStarted := (startTrip s t).totalTripsStarted + 1 }).activeTrips
          = (startTrip s t).activeTrips := rfl
      rw [hact]
      rw [startTrip_activeTrips_map]
      by_cases hc : canStartTrip s t
      · simp [hc, h, List.takeWhile_cons]
      · simp [hc, h, List.takeWhile_cons]
    · simp [consumeDue, h, List.takeWhile_cons]


theorem pushCompletedCapped_frame (s : ChronologicalRenderer) (p : CompletedPath) :
    FrameEq (pushCompletedCapped s p) s := by
  unfold pushCompletedCapped
  dsimp only
  split
  · split
    · exact frameEq_refl _
    · exact ⟨rfl, rfl, rfl, rfl, rfl, rfl, rfl, rfl, rfl, rfl, rfl, rfl⟩
  · exact ⟨rfl, rfl, rfl, rfl, rfl, rfl, rfl, rfl, rfl, rfl, rfl, rfl⟩

theorem acquireCompleted_frame (s : ChronologicalRenderer) :
    FrameEq (acquireCompleted s).2 s := by
  unfold acquireCompleted
  split
  · exact ⟨rfl, rfl, rfl, rfl, rfl, rfl, rfl, rfl, rfl, rfl, rfl, rfl⟩
  · exact ⟨rfl, rfl, rfl, rfl, rfl, rfl, rfl, rfl, rfl, rfl, rfl, rfl⟩

theorem processActive_frame (s : ChronologicalRenderer) (a : ActiveTrip) :
    FrameEq (processActive s a) s := by
  unfold processActive
  dsimp only
  split
  · refine frameEq_trans (frameEq_trans (pushCompletedCapped_frame _ _) ?_)
      (acquireCompleted_frame s)
    exact ⟨rfl, rfl, rfl, rfl, rfl, rfl, rfl, rfl, rfl, rfl, rfl, rfl⟩
  · exact ⟨rfl, rfl, rfl, rfl, rfl, rfl, rfl, rfl, rfl, rfl, rfl, rfl⟩

theorem runActiveLoop_frame (l : List ActiveTrip) :
    ∀ s : ChronologicalRenderer, FrameEq (runActiveLoop s l) s := by
  induction l with
  | nil => intro s; exact frameEq_refl _
  | cons a rest ih =>
    intro s
    exact frameEq_trans (ih (processActive s a)) (processActive_frame s a)

theorem updateActiveTrips_frame (s : ChronologicalRenderer) (now : Int) :
    (updateActiveTrips s now).filteredTrips = s.filteredTrips ∧
    (updateActiveTrips s now).currentTripIndex = s.currentTripIndex ∧
    (updateActiveTrips s now).totalTripsStarted = s.totalTripsStarted ∧
    (updateActiveTrips s now).simulationTime = s.simulationTime ∧
    (updateActiveTrips s now).isRunning = s.isRunning ∧
    (updateActiveTrips s now).lastUpdateTime = s.lastUpdateTime ∧
    (updateActiveTrips s now).animationStartTime = s.animationStartTime ∧
    (updateActiveTrips s now).selectedStationIndices = s.selectedStationIndices ∧
    (updateActiveTrips s now).stationsLen = s.stationsLen ∧
    (updateActiveTrips s now).maxDisplayedTrips = s.maxDisplayedTrips ∧
    (updateActiveTrips s now).allTrips = s.allTrips := by
  unfold updateActiveTrips
  dsimp only
  split
  · obtain ⟨f1, f2, f3, f4, f5, f6, f7, f8, f9, f10, f11, f12⟩ := runActiveLoop_frame _ _
    exact ⟨f1, f2, f3, f4, f5, f6, f8, f9, f10, f11, f12⟩
  · obtain ⟨f1, f2, f3, f4, f5, f6, f7, f8, f9, f10, f11, f12⟩ := runActiveLoop_frame _ _
    exact ⟨f1, f2, f3, f4, f5, f6, f8, f9, f10, f11, f12⟩


theorem updateSimulation_running_eq (s : ChronologicalRenderer) (speed : ℚ) (now : Int)
    (t0 : ProcessedTrip) (ts : List ProcessedTrip)
    (hf : s.filteredTrips = t0 :: ts) (hr : s.isRunning = true) :
    s.updateSimulation speed now =
      ⟨⟨tickDate t0 (tickSimTime s speed now),
        (consumeDue (tickDate t0 (tickSimTime s speed now))
          { s with simulationTime := tickSimTime s speed now, lastUpdateTime := now }
          ((t0 :: ts).drop s.currentTripIndex)).consumed.length⟩,
       updateActiveTrips
         (consumeDue (tickDate t0 (tickSimTime s speed now))
           { s with simulationTime := tickSimTime s speed now, lastUpdateTime := now }
           ((t0 :: ts).drop s.currentTripIndex)).state now,
       (consumeDue (tickDate t0 (tickSimTime s speed now))
         { s with simulationTime := tickSimTime s speed now, lastUpdateTime := now }
         ((t0 :: ts).drop s.currentTripIndex)).started⟩ := by
  unfold updateSimulation
  rw [hf]
  rw [hr]
  rfl

theorem updateSimulation_spec (s : ChronologicalRenderer) (speed : ℚ) (now : Int)
    (t0 : ProcessedTrip) (ts : List ProcessedTrip)
    (hf : s.filteredTrips = t0 :: ts) (hr : s.isRunning = true) :
    (s.updateSimulation speed now).result.currentSimTime = tickDate t0 (tickSimTime s speed now) ∧
    (s.updateSimulation speed now).result.tripsStarted =
      (s.dueSegment (tickDate t0 (tickSimTime s speed now))).length ∧
    (s.updateSimulation speed now).started =
      (s.dueSegment (tickDate t0 (tickSimTime s speed now))).filter (canStartTrip s) ∧
    (s.updateSimulation speed now).state.simulationTime = tickSimTime s speed now ∧
    (s.updateSimulation speed now).state.currentTripIndex =
      s.currentTripIndex + (s.dueSegment (tickDate t0 (tickSimTime s speed now))).length ∧
    (s.updateSimulation speed now).state.totalTripsStarted =
      s.totalTripsStarted + (s.dueSegment (tickDate t0 (tickSimTime s speed now))).length ∧
    (s.updateSimulation speed now).state.filteredTrips = s.filteredTrips ∧
    (s.updateSimulation speed now).state.selectedStationIndices = s.selectedStationIndices ∧
    (s.updateSimulation speed now).state.stationsLen = s.stationsLen ∧
    (s.updateSimulation speed now).state.maxDisplayedTrips = s.maxDisplayedTrips ∧
    (s.updateSimulation speed now).state.isRunning = true ∧
    (s.updateSimulation speed now).state.lastUpdateTime = now := by
  have hseg : ∀ T : Int,
      s.dueSegment T = ((t0 :: ts).drop s.currentTripIndex).takeWhile (fun t => tripDue t T) := by
    intro T
    unfold dueSegment
    rw [hf]
  have hcs : canStartTrip
      { s with simulationTime := tickSimTime s speed now, lastUpdateTime := now } =
      canStartTrip s := canStartTrip_congr rfl rfl
  rw [updateSimulation_running_eq s speed now t0 ts hf hr]
  refine ⟨rfl, ?_, ?_, ?_, ?_, ?_, ?_, ?_, ?_, ?_, ?_, ?_⟩
  · rw [consumeDue_consumed, hseg]
  · rw [consumeDue_started, hcs, hseg]
  · exact ((updateActiveTrips_frame _ _).2.2.2.1).trans ((consumeDue_preserved _ _ _).2.1)
  · rw [hseg]
    exact ((updateActiveTrips_frame _ _).2.1).trans ((consumeDue_counters _ _ _).1)
  · rw [hseg]
    exact ((updateActiveTrips_frame _ _).2.2.1).trans ((consumeDue_counters _ _ _).2)
  · exact ((updateActiveTrips_frame _ _).1).trans ((consumeDue_preserved _ _ _).1)
  · exact ((updateActiveTrips_frame _ _).2.2.2.2.2.2.2.1).trans
      ((consumeDue_preserved _ _ _).2.2.2.2.2.2.1)
  · exact ((updateActiveTrips_frame _ _).2.2.2.2.2.2.2.2.1).trans
      ((consumeDue_preserved _ _ _).2.2.2.2.2.2.2.1)
  · exact ((updateActiveTrips_frame _ _).2.2.2.2.2.2.2.2.2.1).trans
      ((consumeDue_preserved _ _ _).2.2.2.2.2.2.2.2.1)
  · exact (((updateActiveTrips_frame _ _).2.2.2.2.1).trans ((consumeDue_preserved _ _ _).2.2.1)).trans hr
  · exact ((updateActiveTrips_frame _ _).2.2.2.2.2.1).trans ((consumeDue_preserved _ _ _).2.2.2.1)

end ChronologicalRenderer
end CitiBike

namespace CitiBike

namespace ChronologicalRenderer

theorem updateSimulation_paused_eq (s : ChronologicalRenderer) (speed : ℚ) (now : Int)
    (t0 : ProcessedTrip) (ts : List ProcessedTrip)
    (hf : s.filteredTrips = t0 :: ts) (hr : s.isRunning = false) :
    s.updateSimulation speed now =
      ⟨⟨tickDate t0 s.simulationTime, 0⟩, updateActiveTrips s now, []⟩ := by
  unfold updateSimulation
  rw [hf]
  simp only [hr, Bool.false_eq_true, if_false]
  rfl

theorem updateSimulation_empty_eq (s : ChronologicalRenderer) (speed : ℚ) (now : Int)
    (hf : s.filteredTrips = []) :
    s.updateSimulation speed now = ⟨⟨now, 0⟩, s, []⟩ := by
  unfold updateSimulation
  rw [hf]

end ChronologicalRenderer

theorem takeWhile_mem_sat {α : Type} (p : α → Bool) :
    ∀ (l : List α) (j : Nat) (t : α),
      j < (l.takeWhile p).length → l[j]? = some t → p t = true := by
  intro l
  induction l with
  | nil => intro j t hj ht; simp at ht
  | cons a rest ih =>
    intro j t hj ht
    by_cases hp : p a
    · rw [List.takeWhile_cons_of_pos hp] at hj
      cases j with
      | zero =>
        simp at ht
        rw [← ht]
        exact hp
      | succ n =>
        simp at ht hj
        exact ih n t hj ht
    · rw [List.takeWhile_cons_of_neg hp] at hj
      simp at hj

theorem takeWhile_boundary_fails {α : Type} (p : α → Bool) :
    ∀ (l : List α) (t : α),
      l[(l.takeWhile p).length]? = some t → p t = false := by
  intro l
  induction l with
  | nil => intro t ht; simp at ht
  | cons a rest ih =>
    intro t ht
    by_cases hp : p a
    · rw [List.takeWhile_cons_of_pos hp] at ht
      simp at ht
      exact ih t ht
    · rw [List.takeWhile_cons_of_neg hp] at ht
      simp at ht
      rw [← ht]
      simp [hp]

theorem takeWhile_eq_take_length {α : Type} (p : α → Bool) :
    ∀ l : List α, l.takeWhile p = l.take (l.takeWhile p).length := by
  intro l
  induction l with
  | nil => rfl
  | cons a rest ih =>
    by_cases hp : p a
    · rw [List.takeWhile_cons_of_pos hp]
      simp only [List.length_cons, List.take_succ_cons]
      exact congrArg (List.cons a) ih
    · rw [List.takeWhile_cons_of_neg hp]
      rfl

theorem takeWhile_filter_concat {α : Type} (p P : α → Bool) (l : List α) (idx M : Nat) :
    ((l.drop idx).takeWhile p).filter P ++
        ((l.drop (idx + ((l.drop idx).takeWhile p).length)).take M).filter P =
      ((l.drop idx).take (((l.drop idx).takeWhile p).length + M)).filter P := by
  rw [← List.filter_append]
  congr 1
  rw [List.take_add]
  congr 1
  · exact takeWhile_eq_take_length p (l.drop idx)
  · congr 1
    rw [List.drop_drop]

open ChronologicalRenderer

theorem runOps_replay :
    ∀ (ops : List EngineOp), (∀ op ∈ ops, isReplayOp op = true) →
      ∀ s : ChronologicalRenderer, ∃ N : Nat,
        (runOps s ops).2 =
          ((s.filteredTrips.drop s.currentTripIndex).take N).filter (canStartTrip s) := by
  intro ops
  induction ops with
  | nil =>
    intro _ s
    exact ⟨0, by simp [runOps]⟩
  | cons op rest ih =>
    intro h s
    have hop := h op (List.mem_cons_self op rest)
    have hrest : ∀ o ∈ rest, isReplayOp o = true :=
      fun o ho => h o (List.mem_cons_of_mem op ho)
    cases op with
    | start now => simp [isReplayOp] at hop
    | setStations indices now => simp [isReplayOp] at hop
    | pause =>
      obtain ⟨M, hM⟩ := ih hrest s.pause
      refine ⟨M, ?_⟩
      have hP : canStartTrip s.pause = canStartTrip s := canStartTrip_congr rfl rfl
      simp only [runOps, applyOp, List.nil_append]
      rw [hM, hP]
      rfl
    | resume now =>
      obtain ⟨M, hM⟩ := ih hrest (s.resume now)
      refine ⟨M, ?_⟩
      have hP : canStartTrip (s.resume now) = canStartTrip s := canStartTrip_congr rfl rfl
      simp only [runOps, applyOp, List.nil_append]
      rw [hM, hP]
      rfl
    | update speed now =>
      rcases hfc : s.filteredTrips with _ | ⟨t0, ts⟩
      · obtain ⟨M, hM⟩ := ih hrest s
        refine ⟨M, ?_⟩
        rw [hfc] at hM
        simp only [runOps, applyOp, updateSimulation_empty_eq s speed now hfc, List.nil_append]
        exact hM
      · cases hrb : s.isRunning
        · obtain ⟨M, hM⟩ := ih hrest (s.updateActiveTrips now)
          refine ⟨M, ?_⟩
          rw [← hfc]
          have hfr := updateActiveTrips_frame s now
          have hP : canStartTrip (s.updateActiveTrips now) = canStartTrip s :=
            canStartTrip_congr (hfr.2.2.2.2.2.2.2.2.1) (hfr.2.2.2.2.2.2.2.1)
          simp only [runOps, applyOp, updateSimulation_paused_eq s speed now t0 ts hfc hrb,
            List.nil_append]
          rw [hM, hP, hfr.1, hfr.2.1]
        · have spec := updateSimulation_spec s speed now t0 ts hfc hrb
          obtain ⟨M, hM⟩ := ih hrest (s.updateSimulation speed now).state
          have hP : canStartTrip (s.updateSimulation speed now).state = canStartTrip s :=
            canStartTrip_congr (spec.2.2.2.2.2.2.2.2.1) (spec.2.2.2.2.2.2.2.1)
          refine ⟨(s.dueSegment (tickDate t0 (tickSimTime s speed now))).length + M, ?_⟩
          rw [← hfc]
          simp only [runOps, applyOp]
          rw [hM, hP, spec.2.2.2.2.2.2.1, spec.2.2.2.2.1, spec.2.2.1]
          simp only [dueSegment]
          exact takeWhile_filter_concat _ _ s.filteredTrips s.currentTripIndex M

theorem updateStarted_sublist (s : ChronologicalRenderer) (speed : ℚ) (now : Int) :
    (s.updateSimulation speed now).started.Sublist s.filteredTrips := by
  rcases hf : s.filteredTrips with _ | ⟨t0, ts⟩
  · rw [updateSimulation_empty_eq s speed now hf]
  · cases hrb : s.isRunning
    · rw [updateSimulation_paused_eq s speed now t0 ts hf hrb]
      exact List.nil_sublist _
    · have spec := updateSimulation_spec s speed now t0 ts hf hrb
      rw [spec.2.2.1, ← hf]
      refine (List.filter_sublist _).trans ?_
      unfold dueSegment
      rw [takeWhile_eq_take_length]
      exact (List.take_sublist _ _).trans (List.drop_sublist _ _)

theorem sorted_replay_log (s : ChronologicalRenderer) (ops : List EngineOp)
    (hsort : SortedFeed s.filteredTrips) (hops : ∀ op ∈ ops, isReplayOp op = true) :
    SortedFeed (runOps s ops).2 := by
  obtain ⟨N, hN⟩ := runOps_replay ops hops s
  rw [hN]
  refine List.Pairwise.sublist ?_ hsort
  refine (List.filter_sublist _).trans ?_
  exact (List.take_sublist _ _).trans (List.drop_sublist _ _)

end CitiBike

namespace CitiBike
namespace ChronologicalRenderer

theorem acquireCompleted_completedPaths (s : ChronologicalRenderer) :
    (acquireCompleted s).2.completedPaths = s.completedPaths := by
  unfold acquireCompleted
  split <;> rfl

theorem pushCompletedCapped_cap (s : ChronologicalRenderer) (p : CompletedPath)
    (h : s.completedPaths.length ≤ s.maxDisplayedTrips) :
    (pushCompletedCapped s p).completedPaths.length ≤ s.maxDisplayedTrips := by
  unfold pushCompletedCapped
  dsimp only
  split
  · split
    · rename_i heq
      simp at heq
    · rename_i heq
      have := congrArg List.length heq
      simp at this
      simp
      omega
  · rename_i hle
    simp at hle ⊢
    omega

theorem processActive_cap (s : ChronologicalRenderer) (a : ActiveTrip)
    (h : s.completedPaths.length ≤ s.maxDisplayedTrips) :
    (processActive s a).completedPaths.length ≤ s.maxDisplayedTrips := by
  have hmax := (acquireCompleted_frame s).2.2.2.2.2.2.2.2.2.2.1
  have hcp := acquireCompleted_completedPaths s
  unfold processActive
  dsimp only
  split
  · refine le_of_le_of_eq (pushCompletedCapped_cap _ _ ?_) ?_
    · show (acquireCompleted s).2.completedPaths.length ≤ (acquireCompleted s).2.maxDisplayedTrips
      rw [hcp, hmax]
      exact h
    · show (acquireCompleted s).2.maxDisplayedTrips = s.maxDisplayedTrips
      exact hmax
  · exact h

theorem runActiveLoop_cap (l : List ActiveTrip) :
    ∀ s : ChronologicalRenderer, s.completedPaths.length ≤ s.maxDisplayedTrips →
      (runActiveLoop s l).completedPaths.length ≤ s.maxDisplayedTrips := by
  induction l with
  | nil => intro s h; exact h
  | cons a rest ih =>
    intro s h
    have hmax := (processActive_frame s a).2.2.2.2.2.2.2.2.2.2.1
    have := ih (processActive s a) (by rw [hmax]; exact processActive_cap s a h)
    rw [hmax] at this
    exact this

theorem updateActiveTrips_cap (s : ChronologicalRenderer) (now : Int)
    (h : s.completedPaths.length ≤ s.maxDisplayedTrips) :
    (updateActiveTrips s now).completedPaths.length ≤ s.maxDisplayedTrips := by
  unfold updateActiveTrips
  dsimp only
  split
  · exact runActiveLoop_cap _ _ h
  · exact runActiveLoop_cap _ _ h

theorem setSelectedStations_fields (s : ChronologicalRenderer) (idx : Finset Int) (now : Int) :
    (setSelectedStations s idx now).activeTrips = s.activeTrips.filter (keepActive idx) ∧
    (setSelectedStations s idx now).completedPaths = s.completedPaths.filter (keepPath idx) ∧
    (setSelectedStations s idx now).activeTripPool =
      ((s.activeTrips.filter (fun a => !keepActive idx a)).map resetActiveTrip).reverse ++
        s.activeTripPool ∧
    (setSelectedStations s idx now).completedPathPool =
      ((s.completedPaths.filter (fun p => !keepPath idx p)).map resetCompletedPath).reverse ++
        s.completedPathPool ∧
    (setSelectedStations s idx now).simulationTime = s.simulationTime ∧
    (setSelectedStations s idx now).maxDisplayedTrips = s.maxDisplayedTrips ∧
    (setSelectedStations s idx now).selectedStationIndices = idx ∧
    (setSelectedStations s idx now).stationsLen = s.stationsLen ∧
    (setSelectedStations s idx now).totalTripsStarted = s.totalTripsStarted ∧
    (setSelectedStations s idx now).allTrips = s.allTrips := by
  unfold setSelectedStations applyStationFilter filterActiveTripsAndPaths
  dsimp only
  repeat' split
  all_goals exact ⟨rfl, rfl, rfl, rfl, rfl, rfl, rfl, rfl, rfl, rfl⟩

end ChronologicalRenderer

open ChronologicalRenderer

theorem applyOp_cap (s : ChronologicalRenderer) (op : EngineOp)
    (h : CompletedWithinCap s) :
    CompletedWithinCap (applyOp s op).1 ∧
      (applyOp s op).1.maxDisplayedTrips = s.maxDisplayedTrips := by
  unfold CompletedWithinCap at h ⊢
  cases op with
  | start now =>
    show (startSimulation s now).completedPaths.length ≤ (startSimulation s now).maxDisplayedTrips ∧
      (startSimulation s now).maxDisplayedTrips = s.maxDisplayedTrips
    unfold startSimulation
    split
    · exact ⟨by simp, rfl⟩
    · exact ⟨h, rfl⟩
  | pause =>
    show (pause s).completedPaths.length ≤ (pause s).maxDisplayedTrips ∧
      (pause s).maxDisplayedTrips = s.maxDisplayedTrips
    exact ⟨h, rfl⟩
  | resume now =>
    show (resume s now).completedPaths.length ≤ (resume s now).maxDisplayedTrips ∧
      (resume s now).maxDisplayedTrips = s.maxDisplayedTrips
    exact ⟨h, rfl⟩
  | setStations indices now =>
    have hf := setSelectedStations_fields s indices now
    show (setSelectedStations s indices now).completedPaths.length ≤
        (setSelectedStations s indices now).maxDisplayedTrips ∧
      (setSelectedStations s indices now).maxDisplayedTrips = s.maxDisplayedTrips
    rw [hf.2.1, hf.2.2.2.2.2.1]
    exact ⟨le_trans (s.completedPaths.length_filter_le _) h, rfl⟩
  | update speed now =>
    rcases hfc : s.filteredTrips with _ | ⟨t0, ts⟩
    · simp only [applyOp, updateSimulation_empty_eq s speed now hfc]
      exact ⟨h, trivial⟩
    · cases hrb : s.isRunning
      · simp only [applyOp, updateSimulation_paused_eq s speed now t0 ts hfc hrb]
        have hmax := (updateActiveTrips_frame s now).2.2.2.2.2.2.2.2.2.1
        refine ⟨?_, hmax⟩
        rw [hmax]
        exact updateActiveTrips_cap s now h
      · simp only [applyOp, updateSimulation_running_eq s speed now t0 ts hfc hrb]
        have hcp : ∀ cs : ConsumeOutcome, cs = consumeDue (tickDate t0 (tickSimTime s speed now))
            { s with simulationTime := tickSimTime s speed now, lastUpdateTime := now }
            ((t0 :: ts).drop s.currentTripIndex) →
            cs.state.completedPaths = s.completedPaths ∧
              cs.state.maxDisplayedTrips = s.maxDisplayedTrips := by
          intro cs hcs
          subst hcs
          exact ⟨(consumeDue_preserved _ _ _).2.2.2.2.2.2.2.2.2.2.1,
            (consumeDue_preserved _ _ _).2.2.2.2.2.2.2.2.1⟩
        obtain ⟨h1, h2⟩ := hcp _ rfl
        have hmax := (updateActiveTrips_frame (consumeDue (tickDate t0 (tickSimTime s speed now))
          { s with simulationTime := tickSimTime s speed now, lastUpdateTime := now }
          ((t0 :: ts).drop s.currentTripIndex)).state now).2.2.2.2.2.2.2.2.2.1
        refine ⟨?_, hmax.trans h2⟩
        rw [hmax, h2]
        have := updateActiveTrips_cap _ now (by rw [h1, h2]; exact h)
        rw [h2] at this
        exact this

theorem runOps_cap (ops : List EngineOp) :
    ∀ s : ChronologicalRenderer, CompletedWithinCap s → CompletedWithinCap (runOps s ops).1 := by
  induction ops with
  | nil => intro s h; exact h
  | cons op rest ih =>
    intro s h
    exact ih (applyOp s op).1 (applyOp_cap s op h).1

end CitiBike
namespace CitiBike
namespace ChronologicalRenderer

theorem pushCompletedCapped_evict (s : ChronologicalRenderer) (p q : CompletedPath)
    (rest : List CompletedPath) (hq : s.completedPaths = q :: rest)
    (hfull : s.maxDisplayedTrips ≤ rest.length + 1) :
    pushCompletedCapped s p =
      { s with
        completedPaths := rest ++ [p]
        completedPathPool := resetCompletedPath q :: s.completedPathPool } := by
  have hcond : s.maxDisplayedTrips < ((q :: rest) ++ [p]).length := by
    simp
    omega
  unfold pushCompletedCapped
  dsimp only
  rw [hq]
  rw [if_pos hcond]
  rfl

theorem processActive_shift (s : ChronologicalRenderer) (a : ActiveTrip) (b : Bool) (x y : Int) :
    processActive { s with isRunning := b, lastUpdateTime := x, animationStartTime := y } a =
      { processActive s a with isRunning := b, lastUpdateTime := x, animationStartTime := y } := by
  cases s
  unfold processActive acquireCompleted pushCompletedCapped
  dsimp only
  repeat' split
  all_goals try rfl
  all_goals try simp_all
  all_goals omega

end ChronologicalRenderer
end CitiBike

namespace CitiBike
namespace ChronologicalRenderer

theorem runActiveLoop_shift (l : List ActiveTrip) :
    ∀ (s : ChronologicalRenderer) (b : Bool) (x y : Int),
      runActiveLoop { s with isRunning := b, lastUpdateTime := x, animationStartTime := y } l =
        { runActiveLoop s l with isRunning := b, lastUpdateTime := x, animationStartTime := y } := by
  induction l with
  | nil => intro s b x y; rfl
  | cons a rest ih =>
    intro s b x y
    show runActiveLoop
        (processActive { s with isRunning := b, lastUpdateTime := x, animationStartTime := y } a)
        rest = _
    rw [processActive_shift]
    exact ih (processActive s a) b x y

theorem setRunningTrue_eta (X : ChronologicalRenderer) (hx : X.isRunning = true) (x y : Int) :
    ({ X with isRunning := true, lastUpdateTime := x, animationStartTime := y } :
        ChronologicalRenderer) =
      { X with lastUpdateTime := x, animationStartTime := y } := by
  obtain ⟨g1, g2, g3, g4, g5, g6, g7, g8, g9, g10, g11, g12, g13, g14, g15, g16, g17⟩ := X
  simp only at hx
  subst hx
  rfl

theorem updateActiveTrips_running_eq (s : ChronologicalRenderer) (now : Int)
    (hr : s.isRunning = true) :
    updateActiveTrips s now =
      runActiveLoop
        { s with animationTime := now - s.animationStartTime, activeTrips := [] }
        s.activeTrips := by
  unfold updateActiveTrips
  rw [hr]
  rfl

theorem updateActiveTrips_paused_animationTime (s : ChronologicalRenderer) (now : Int)
    (hr : s.isRunning = false) :
    (updateActiveTrips s now).animationTime = s.animationTime := by
  unfold updateActiveTrips
  rw [hr]
  simp only [Bool.false_eq_true, if_false]
  exact (runActiveLoop_frame _ _).2.2.2.2.2.2.1

theorem pauseResume_updateActiveTrips (s : ChronologicalRenderer) (r d : Int) (hr : s.isRunning = true) :
    updateActiveTrips ((s.pause).resume r) (r + d) =
      { updateActiveTrips s (s.animationStartTime + s.animationTime + d) with
        lastUpdateTime := r
        animationStartTime := r - s.animationTime } := by
  have e1 : (r + d) - (r - s.animationTime) = s.animationTime + d := by omega
  have e2 : (s.animationStartTime + s.animationTime + d) - s.animationStartTime =
      s.animationTime + d := by omega
  rw [updateActiveTrips_running_eq ((s.pause).resume r) (r + d) rfl,
    updateActiveTrips_running_eq s (s.animationStartTime + s.animationTime + d) hr]
  dsimp only [pause, resume]
  rw [e1, e2]
  have hX : (runActiveLoop
      { s with animationTime := s.animationTime + d, activeTrips := [] }
      s.activeTrips).isRunning = true :=
    ((runActiveLoop_frame _ _).2.2.2.2.1).trans hr
  exact (runActiveLoop_shift s.activeTrips
      { s with animationTime := s.animationTime + d, activeTrips := [] }
      true r (r - s.animationTime)).trans
    (setRunningTrue_eta _ hX r (r - s.animationTime))

end ChronologicalRenderer
end CitiBike
namespace CitiBike
namespace ChronologicalRenderer

theorem runningWrap_fields (c : Prop) [Decidable c] (s3 : ChronologicalRenderer) (now : Int) :
    ((if c then { s3 with isRunning := true, lastUpdateTime := now } else s3) :
        ChronologicalRenderer).currentTripIndex = s3.currentTripIndex ∧
      ((if c then { s3 with isRunning := true, lastUpdateTime := now } else s3) :
        ChronologicalRenderer).filteredTrips = s3.filteredTrips := by
  split <;> exact ⟨rfl, rfl⟩

theorem applyStationFilter_idx (s : ChronologicalRenderer) :
    (applyStationFilter s).currentTripIndex = s.currentTripIndex := by
  unfold applyStationFilter
  split <;> rfl

theorem setSelectedStations_index (s : ChronologicalRenderer) (idx : Finset Int) (now : Int)
    (hsim : 0 < s.simulationTime) :
    ((setSelectedStations s idx now).filteredTrips = [] ∧
        (setSelectedStations s idx now).currentTripIndex = s.currentTripIndex) ∨
      (∃ t0 rest, (setSelectedStations s idx now).filteredTrips = t0 :: rest ∧
        (setSelectedStations s idx now).currentTripIndex =
          adjustTripIndex (t0 :: rest) (((t0.startTimestamp * 1000 : Int) : ℚ) + s.simulationTime)) := by
  unfold setSelectedStations
  dsimp only
  rw [(runningWrap_fields _ _ now).1, (runningWrap_fields _ _ now).2]
  split
  · rename_i heq
    exact Or.inl ⟨heq, applyStationFilter_idx _⟩
  · rename_i t0 rest heq
    rw [if_pos hsim]
    refine Or.inr ⟨t0, rest, heq, ?_⟩
    dsimp only
    rw [heq]

end ChronologicalRenderer
end CitiBike
namespace CitiBike
open ChronologicalRenderer

theorem takeWhile_length_le {α : Type} (p : α → Bool) (l : List α) :
    (l.takeWhile p).length ≤ l.length := by
  have h := List.take_sublist ((l.takeWhile p).length) l
  rw [← takeWhile_eq_take_length] at h
  exact h.length_le

theorem sorted_takeWhile_eq_filter (T : Int) :
    ∀ l : List ProcessedTrip, SortedFeed l →
      l.takeWhile (fun t => tripDue t T) = l.filter (fun t => tripDue t T) := by
  intro l
  induction l with
  | nil => intro _; rfl
  | cons a rest ih =>
    intro hs
    have hs' : SortedFeed rest := List.Pairwise.of_cons hs
    by_cases ha : tripDue a T
    · rw [@List.takeWhile_cons_of_pos _ (fun t => tripDue t T) a rest ha,
        @List.filter_cons_of_pos _ (fun t => tripDue t T) a rest ha, ih hs']
    · rw [@List.takeWhile_cons_of_neg _ (fun t => tripDue t T) a rest ha,
        @List.filter_cons_of_neg _ (fun t => tripDue t T) a rest ha]
      symm
      rw [List.filter_eq_nil_iff]
      intro b hb
      have hab := (List.pairwise_cons.mp hs).1 b hb
      unfold tripDue at ha ⊢
      simp at ha ⊢
      omega

end CitiBike

namespace CitiBike
open ChronologicalRenderer

attribute [local semireducible] Rat.add Rat.mul Rat.inv Rat.sub Rat.ofScientific

/-- C1: a `setSelectedStations` call made while playback has progressed (the
simulated offset is positive) leaves the simulated offset untouched and moves
the forward feed pointer to the first index of the new filtered sequence
whose start timestamp exceeds the current simulated time (anchored at the new
first trip): every trip before the pointer is at or before that time, the
trip at the pointer — when one exists — is strictly after it, and the pointer
never exceeds the sequence, so playback neither rewinds already-started trips
nor skips pending ones. -/
theorem claim1_filter_relocates_pointer (s : ChronologicalRenderer) (idx : Finset Int)
    (now : Int) (t0 : ProcessedTrip) (rest : List ProcessedTrip)
    (hsim : 0 < s.simulationTime)
    (hne : (s.setSelectedStations idx now).filteredTrips = t0 :: rest) :
    (s.setSelectedStations idx now).simulationTime = s.simulationTime ∧
    (s.setSelectedStations idx now).currentTripIndex ≤ (t0 :: rest).length ∧
    (∀ j t, j < (s.setSelectedStations idx now).currentTripIndex → (t0 :: rest)[j]? = some t →
      ((t.startTimestamp * 1000 : Int) : ℚ) ≤
        ((t0.startTimestamp * 1000 : Int) : ℚ) + s.simulationTime) ∧
    (∀ t, (t0 :: rest)[(s.setSelectedStations idx now).currentTripIndex]? = some t →
      ((t0.startTimestamp * 1000 : Int) : ℚ) + s.simulationTime <
        ((t.startTimestamp * 1000 : Int) : ℚ)) := by
  refine ⟨(setSelectedStations_fields s idx now).2.2.2.2.1, ?_⟩
  rcases setSelectedStations_index s idx now hsim with ⟨hnil, _⟩ | ⟨t0', rest', hfe, hidx⟩
  · rw [hne] at hnil
    exact absurd hnil (List.cons_ne_nil t0 rest)
  · rw [hne] at hfe
    injection hfe with h1 h2
    subst h1
    subst h2
    rw [hidx]
    unfold adjustTripIndex
    refine ⟨takeWhile_length_le _ _, ?_, ?_⟩
    · intro j t hj ht
      have := takeWhile_mem_sat _ (t0 :: rest) j t hj ht
      exact of_decide_eq_true this
    · intro t ht
      have := takeWhile_boundary_fails _ (t0 :: rest) t ht
      have hnot : ¬ ((t.startTimestamp * 1000 : Int) : ℚ) ≤
          ((t0.startTimestamp * 1000 : Int) : ℚ) + s.simulationTime :=
        of_decide_eq_false this
      exact lt_of_not_le hnot

/-- C1 witness: a concrete relocation after 30000 ms of simulated playback. -/
theorem claim1_witness :
    (relocState.setSelectedStations {0} 2000).simulationTime = relocState.simulationTime ∧
    (relocState.setSelectedStations {0} 2000).currentTripIndex ≤ [xTripW, xTripQ].length ∧
    (∀ j t, j < (relocState.setSelectedStations {0} 2000).currentTripIndex →
      [xTripW, xTripQ][j]? = some t →
      ((t.startTimestamp * 1000 : Int) : ℚ) ≤
        ((xTripW.startTimestamp * 1000 : Int) : ℚ) + relocState.simulationTime) ∧
    (∀ t, [xTripW, xTripQ][(relocState.setSelectedStations {0} 2000).currentTripIndex]? = some t →
      ((xTripW.startTimestamp * 1000 : Int) : ℚ) + relocState.simulationTime <
        ((t.startTimestamp * 1000 : Int) : ℚ)) :=
  claim1_filter_relocates_pointer relocState {0} 2000 xTripW [xTripQ] (by decide) (by decide)

/-- C2: starting from any state whose completed buffer respects the
`MAX_DISPLAYED_TRIPS` capacity, every sequence of start, update, pause,
resume and filter-change operations keeps the completed-path buffer within
the capacity after every cycle. -/
theorem claim2_buffer_bounded (s : ChronologicalRenderer) (ops : List EngineOp)
    (h : CompletedWithinCap s) : CompletedWithinCap (runOps s ops).1 :=
  runOps_cap ops s h

/-- C2 witness: the bound after a concrete start-and-update run. -/
theorem claim2_witness :
    CompletedWithinCap (runOps ((mkRenderer 2 2).initializeWithData [demoTripA, demoTripB] 1)
      [EngineOp.start 1000, EngineOp.update 1 1020]).1 :=
  claim2_buffer_bounded _ _ (by decide)

/-- C5: `setSelectedStations` with new selection `S` prunes the active list
and the completed buffer to exactly the slots whose trip origin is in `S`
(kept untouched, in order, fields unchanged — the lists are literally
filtered), and every removed slot is released, reset, to its pool. -/
theorem claim5_prune_releases (s : ChronologicalRenderer) (idx : Finset Int) (now : Int) :
    (s.setSelectedStations idx now).activeTrips = s.activeTrips.filter (keepActive idx) ∧
    (s.setSelectedStations idx now).completedPaths = s.completedPaths.filter (keepPath idx) ∧
    (s.setSelectedStations idx now).activeTripPool =
      ((s.activeTrips.filter (fun a => !keepActive idx a)).map resetActiveTrip).reverse ++
        s.activeTripPool ∧
    (s.setSelectedStations idx now).completedPathPool =
      ((s.completedPaths.filter (fun p => !keepPath idx p)).map resetCompletedPath).reverse ++
        s.completedPathPool ∧
    (∀ a ∈ (s.setSelectedStations idx now).activeTrips, keepActive idx a = true) ∧
    (∀ a ∈ s.activeTrips, keepActive idx a = true →
      a ∈ (s.setSelectedStations idx now).activeTrips) ∧
    (∀ a ∈ s.activeTrips, keepActive idx a = false →
      resetActiveTrip a ∈ (s.setSelectedStations idx now).activeTripPool) ∧
    (∀ p ∈ (s.setSelectedStations idx now).completedPaths, keepPath idx p = true) ∧
    (∀ p ∈ s.completedPaths, keepPath idx p = true →
      p ∈ (s.setSelectedStations idx now).completedPaths) ∧
    (∀ p ∈ s.completedPaths, keepPath idx p = false →
      resetCompletedPath p ∈ (s.setSelectedStations idx now).completedPathPool) := by
  obtain ⟨h1, h2, h3, h4, h5, h6, h7, h8, h9, h10⟩ := setSelectedStations_fields s idx now
  refine ⟨h1, h2, h3, h4, ?_, ?_, ?_, ?_, ?_, ?_⟩
  · intro a ha
    rw [h1] at ha
    exact (List.mem_filter.mp ha).2
  · intro a ha hk
    rw [h1]
    exact List.mem_filter.mpr ⟨ha, hk⟩
  · intro a ha hk
    rw [h3]
    refine List.mem_append.mpr (Or.inl ?_)
    rw [List.mem_reverse]
    exact List.mem_map.mpr ⟨a, List.mem_filter.mpr ⟨ha, by rw [hk]; rfl⟩, rfl⟩
  · intro p hp
    rw [h2] at hp
    exact (List.mem_filter.mp hp).2
  · intro p hp hk
    rw [h2]
    exact List.mem_filter.mpr ⟨hp, hk⟩
  · intro p hp hk
    rw [h4]
    refine List.mem_append.mpr (Or.inl ?_)
    rw [List.mem_reverse]
    exact List.mem_map.mpr ⟨p, List.mem_filter.mpr ⟨hp, by rw [hk]; rfl⟩, rfl⟩

/-- C5 witness: the station-0 selection on the concrete mid-run state keeps
exactly the origin-0 active slots. -/
theorem claim5_witness :
    (relocState.setSelectedStations {0} 2000).activeTrips =
      relocState.activeTrips.filter (keepActive {0}) :=
  (claim5_prune_releases relocState {0} 2000).1

/-- C6: while paused, an update call starts no trips, leaves the simulated
offset, the forward pointer, the started counter and the real-time sample
unchanged, and returns the frozen simulated time — a value depending only on
the stored offset and the first filtered trip, not on `now` or `speed`. -/
theorem claim6_paused_update (s : ChronologicalRenderer) (speed : ℚ) (now : Int)
    (t0 : ProcessedTrip) (ts : List ProcessedTrip)
    (hf : s.filteredTrips = t0 :: ts) (hr : s.isRunning = false) :
    (s.updateSimulation speed now).result = ⟨tickDate t0 s.simulationTime, 0⟩ ∧
    (s.updateSimulation speed now).started = [] ∧
    (s.updateSimulation speed now).state.simulationTime = s.simulationTime ∧
    (s.updateSimulation speed now).state.currentTripIndex = s.currentTripIndex ∧
    (s.updateSimulation speed now).state.totalTripsStarted = s.totalTripsStarted ∧
    (s.updateSimulation speed now).state.lastUpdateTime = s.lastUpdateTime := by
  rw [updateSimulation_paused_eq s speed now t0 ts hf hr]
  have hfr := updateActiveTrips_frame s now
  exact ⟨rfl, rfl, hfr.2.2.2.1, hfr.2.1, hfr.2.2.1, hfr.2.2.2.2.2.1⟩

/-- C6 witness: a paused concrete state update (speed 3, 400 ms later). -/
theorem claim6_witness :
    (pausedDemoState.updateSimulation 3 1420).result =
      ⟨tickDate demoTripA pausedDemoState.simulationTime, 0⟩ ∧
    (pausedDemoState.updateSimulation 3 1420).started = [] ∧
    (pausedDemoState.updateSimulation 3 1420).state.simulationTime =
      pausedDemoState.simulationTime ∧
    (pausedDemoState.updateSimulation 3 1420).state.currentTripIndex =
      pausedDemoState.currentTripIndex ∧
    (pausedDemoState.updateSimulation 3 1420).state.totalTripsStarted =
      pausedDemoState.totalTripsStarted ∧
    (pausedDemoState.updateSimulation 3 1420).state.lastUpdateTime =
      pausedDemoState.lastUpdateTime :=
  claim6_paused_update pausedDemoState 3 1420 demoTripA [demoTripB] (by decide) (by decide)

end CitiBike

namespace CitiBike
open ChronologicalRenderer

attribute [local semireducible] Rat.add Rat.mul Rat.inv Rat.sub Rat.ofScientific

/-- C3 counterexample: over a sorted three-trip feed, a sequence of engine
operations containing a filter change activates the timestamp-40 trip before
the timestamp-35 trip, so the activation log is not in non-decreasing
start-timestamp order; the claim fails once filter changes are allowed
between updates. -/
theorem claim3_counterexample :
    SortedFeed orderBreakInit.filteredTrips ∧
    (runOps orderBreakInit orderBreakOps).2.map (fun t => t.startTimestamp) = [40, 35] ∧
    ¬ SortedFeed (runOps orderBreakInit orderBreakOps).2 :=
  ⟨by decide, by decide, by decide⟩

/-- C3 amended: over a sorted filtered feed, any sequence of update, pause
and resume operations (no filter change) activates trips in non-decreasing
start-timestamp order; and within any single tick the activated trips form a
sublist of the filtered feed, hence appear in strictly ascending feed order. -/
theorem claim3_replay_order :
    (∀ (s : ChronologicalRenderer) (ops : List EngineOp),
        SortedFeed s.filteredTrips → (∀ op ∈ ops, isReplayOp op = true) →
        SortedFeed (runOps s ops).2) ∧
    (∀ (s : ChronologicalRenderer) (speed : ℚ) (now : Int),
        (s.updateSimulation speed now).started.Sublist s.filteredTrips) :=
  ⟨fun s ops h1 h2 => sorted_replay_log s ops h1 h2,
   fun s speed now => updateStarted_sublist s speed now⟩

/-- C3 witness: Scenario A's feed replayed with one update keeps the log
sorted. -/
theorem claim3_witness : SortedFeed (runOps scenarioA [EngineOp.update 1 1020]).2 :=
  claim3_replay_order.1 scenarioA [EngineOp.update 1 1020] (by decide) (by decide)

/-- C4: enqueuing a completed path into a buffer that is at (or beyond)
capacity shifts off the oldest entry — the head, regardless of age — and
releases it, reset, onto the pool stack; concretely, with capacity two and
trips T1, T2, T3 completing in that order in one tick, the buffer holds
exactly T2's and T3's paths and the slot that carried T1's path is back on
the pool free list. -/
theorem claim4_fifo_eviction :
    (∀ (s : ChronologicalRenderer) (p q : CompletedPath) (rest : List CompletedPath),
        s.completedPaths = q :: rest → s.maxDisplayedTrips ≤ rest.length + 1 →
        pushCompletedCapped s p =
          { s with
            completedPaths := rest ++ [p]
            completedPathPool := resetCompletedPath q :: s.completedPathPool }) ∧
    (evictState.updateActiveTrips 5000).completedPaths.map (fun p => p.startLatLng) =
      [(201, 202), (301, 302)] ∧
    (evictState.updateActiveTrips 5000).completedPathPool = [createCompletedPath 2] ∧
    (evictState.updateActiveTrips 5000).activeTrips = [] :=
  ⟨fun s p q rest hq hfull => pushCompletedCapped_evict s p q rest hq hfull,
   by decide, by decide, by decide⟩

/-- C4 witness: the eviction equation at a concrete capacity-one buffer. -/
theorem claim4_witness :
    pushCompletedCapped capDemoState capDemoPath =
      { capDemoState with
        completedPaths := [] ++ [capDemoPath]
        completedPathPool := resetCompletedPath (createCompletedPath 7) ::
          capDemoState.completedPathPool } :=
  claim4_fifo_eviction.1 capDemoState capDemoPath (createCompletedPath 7) [] (by decide)
    (by decide)

/-- C7: pausing freezes the animation clock; `resume` at real time `r`
re-anchors the animation origin to `r - frozenAnimationElapsed`; and updating
the active trips `d` real milliseconds after the resume produces exactly the
state of an uninterrupted run observed `d` milliseconds after the animation
clock was last advanced — same animation time, same per-trip progress, same
completions — differing only in the two re-anchored bookkeeping fields. -/
theorem claim7_pause_resume (s : ChronologicalRenderer) (r d : Int)
    (hr : s.isRunning = true) :
    (∀ nowPaused : Int,
      (updateActiveTrips (s.pause) nowPaused).animationTime = s.animationTime) ∧
    ((s.pause).resume r).animationStartTime = r - s.animationTime ∧
    updateActiveTrips ((s.pause).resume r) (r + d) =
      { updateActiveTrips s (s.animationStartTime + s.animationTime + d) with
        lastUpdateTime := r
        animationStartTime := r - s.animationTime } :=
  ⟨fun nowPaused => updateActiveTrips_paused_animationTime (s.pause) nowPaused rfl,
   rfl, pauseResume_updateActiveTrips s r d hr⟩

/-- C7 witness: pause and resume on the running Scenario A state. -/
theorem claim7_witness :
    (∀ nowPaused : Int,
      (updateActiveTrips (scenarioA.pause) nowPaused).animationTime = scenarioA.animationTime) ∧
    ((scenarioA.pause).resume 2000).animationStartTime = 2000 - scenarioA.animationTime ∧
    updateActiveTrips ((scenarioA.pause).resume 2000) (2000 + 50) =
      { updateActiveTrips scenarioA
          (scenarioA.animationStartTime + scenarioA.animationTime + 50) with
        lastUpdateTime := 2000
        animationStartTime := 2000 - scenarioA.animationTime } :=
  claim7_pause_resume scenarioA 2000 50 (by decide)

/-- C8: a running update adds exactly `realElapsed * timeScale * speed` to
the simulated offset, and then starts, in one batch in feed order (a sublist
of the feed), every not-yet-consumed trip of the sorted filtered feed whose
start time is at or before the new simulated time — those passing the origin
check becoming active, in that order. -/
theorem claim8_running_tick (s : ChronologicalRenderer) (speed : ℚ) (now : Int)
    (t0 : ProcessedTrip) (ts : List ProcessedTrip)
    (hf : s.filteredTrips = t0 :: ts) (hr : s.isRunning = true)
    (hsort : SortedFeed s.filteredTrips) :
    (s.updateSimulation speed now).state.simulationTime =
      s.simulationTime + ((now - s.lastUpdateTime : Int) : ℚ) * timeScale * speed ∧
    (s.updateSimulation speed now).started =
      ((s.filteredTrips.drop s.currentTripIndex).filter
        (fun t => tripDue t (tickDate t0 (tickSimTime s speed now)))).filter (canStartTrip s) ∧
    (s.updateSimulation speed now).started.Sublist s.filteredTrips ∧
    (s.updateSimulation speed now).result.tripsStarted =
      ((s.filteredTrips.drop s.currentTripIndex).filter
        (fun t => tripDue t (tickDate t0 (tickSimTime s speed now)))).length ∧
    (s.updateSimulation speed now).state.currentTripIndex =
      s.currentTripIndex + ((s.filteredTrips.drop s.currentTripIndex).filter
        (fun t => tripDue t (tickDate t0 (tickSimTime s speed now)))).length := by
  have spec := updateSimulation_spec s speed now t0 ts hf hr
  have hdrop : SortedFeed (s.filteredTrips.drop s.currentTripIndex) :=
    List.Pairwise.sublist (List.drop_sublist _ _) hsort
  have heq : s.dueSegment (tickDate t0 (tickSimTime s speed now)) =
      (s.filteredTrips.drop s.currentTripIndex).filter
        (fun t => tripDue t (tickDate t0 (tickSimTime s speed now))) := by
    unfold dueSegment
    exact sorted_takeWhile_eq_filter _ _ hdrop
  refine ⟨spec.2.2.2.1, ?_, updateStarted_sublist s speed now, ?_, ?_⟩
  · rw [spec.2.2.1, heq]
  · rw [spec.2.1, heq]
  · rw [spec.2.2.2.2.1, heq]

/-- C8 witness: Scenario A — 20 ms of real time at speed 1 and scale 500
advance the simulated offset by 10000 ms and start both trips in one tick,
`A` before `B`. -/
theorem claim8_witness :
    ((scenarioA.updateSimulation 1 1020).state.simulationTime =
      scenarioA.simulationTime + ((1020 - scenarioA.lastUpdateTime : Int) : ℚ) * timeScale * 1 ∧
    (scenarioA.updateSimulation 1 1020).started =
      ((scenarioA.filteredTrips.drop scenarioA.currentTripIndex).filter
        (fun t => tripDue t (tickDate demoTripA (tickSimTime scenarioA 1 1020)))).filter
        (canStartTrip scenarioA) ∧
    (scenarioA.updateSimulation 1 1020).started.Sublist scenarioA.filteredTrips ∧
    (scenarioA.updateSimulation 1 1020).result.tripsStarted =
      ((scenarioA.filteredTrips.drop scenarioA.currentTripIndex).filter
        (fun t => tripDue t (tickDate demoTripA (tickSimTime scenarioA 1 1020)))).length ∧
    (scenarioA.updateSimulation 1 1020).state.currentTripIndex =
      scenarioA.currentTripIndex +
        ((scenarioA.filteredTrips.drop scenarioA.currentTripIndex).filter
          (fun t => tripDue t (tickDate demoTripA (tickSimTime scenarioA 1 1020)))).length) ∧
    (scenarioA.updateSimulation 1 1020).started = [demoTripA, demoTripB] ∧
    (scenarioA.updateSimulation 1 1020).state.simulationTime = 10000 :=
  ⟨claim8_running_tick scenarioA 1 1020 demoTripA [demoTripB] (by decide) (by decide)
      (by decide),
   by decide, by decide⟩

/-- C9 counterexample: after starting one trip and then selecting a station
with no trips, the filtered feed is empty, yet `getStats` reports a non-zero
`totalTripsStarted` (and a non-zero forward pointer), so "all stats report
zero" fails for a fully-filtered-out feed. -/
theorem claim9_counterexample :
    idleState.filteredTrips = [] ∧
    (getStats idleState).totalTripsStarted = 1 ∧
    ¬ ((getStats idleState).totalTripsStarted = 0 ∧ (getStats idleState).currentTripIndex = 0) :=
  ⟨by decide, by decide, by decide⟩

/-- C9 amended: with an empty filtered feed an update call never throws — it
returns zero trips started and the wall-clock date, leaving the state fully
unchanged — and the progress fraction reports zero; active and completed
counts are zero after the filter change prunes every slot, while the
monotone counters (`totalTripsStarted`, `currentTripIndex`) retain their
prior values; and normal operation resumes once the selection matches trips
again (the concrete idle run restarts its pending trip after re-selection). -/
theorem claim9_idle_never_throws :
    (∀ (s : ChronologicalRenderer) (speed : ℚ) (now : Int), s.filteredTrips = [] →
        s.updateSimulation speed now = ⟨⟨now, 0⟩, s, []⟩ ∧ (getStats s).progress = 0) ∧
    ((getStats idleState).activeTrips = 0 ∧ (getStats idleState).completedPaths = 0 ∧
      (getStats idleState).progress = 0 ∧ (getStats idleState).totalTripsStarted = 1) ∧
    (idleStateBack.filteredTrips.length = 2 ∧
      (idleStateBack.updateSimulation 1 2100).result.tripsStarted = 1) := by
  refine ⟨fun s speed now hf => ⟨updateSimulation_empty_eq s speed now hf, ?_⟩,
    ⟨by decide, by decide, by decide, by decide⟩, ⟨by decide, by decide⟩⟩
  unfold getStats
  rw [hf]
  simp

/-- C9 witness: the empty-feed tick at a freshly constructed renderer. -/
theorem claim9_witness :
    (mkRenderer 0 0).updateSimulation 1 5 = ⟨⟨5, 0⟩, mkRenderer 0 0, []⟩ ∧
    (getStats (mkRenderer 0 0)).progress = 0 :=
  claim9_idle_never_throws.1 (mkRenderer 0 0) 1 5 (by decide)

/-- C10: every due trip consumed by a running update advances the forward
pointer, the `totalTripsStarted` counter and the per-tick count — whether or
not `startTrip` skips it for an undefined, out-of-range or unselected origin
— while only the passing trips gain an active slot; so `getStats` counts
consumed trips and can exceed the number of trips that ever became active. -/
theorem claim10_counts_consumed (s : ChronologicalRenderer) (speed : ℚ) (now : Int)
    (t0 : ProcessedTrip) (ts : List ProcessedTrip)
    (hf : s.filteredTrips = t0 :: ts) (hr : s.isRunning = true) :
    (s.updateSimulation speed now).state.currentTripIndex =
      s.currentTripIndex + (s.dueSegment (tickDate t0 (tickSimTime s speed now))).length ∧
    (s.updateSimulation speed now).state.totalTripsStarted =
      s.totalTripsStarted + (s.dueSegment (tickDate t0 (tickSimTime s speed now))).length ∧
    (getStats (s.updateSimulation speed now).state).totalTripsStarted =
      s.totalTripsStarted + (s.dueSegment (tickDate t0 (tickSimTime s speed now))).length ∧
    (s.updateSimulation speed now).result.tripsStarted =
      (s.dueSegment (tickDate t0 (tickSimTime s speed now))).length ∧
    (s.updateSimulation speed now).started =
      (s.dueSegment (tickDate t0 (tickSimTime s speed now))).filter (canStartTrip s) ∧
    (s.updateSimulation speed now).started.length ≤
      (s.dueSegment (tickDate t0 (tickSimTime s speed now))).length := by
  have spec := updateSimulation_spec s speed now t0 ts hf hr
  refine ⟨spec.2.2.2.2.1, spec.2.2.2.2.2.1, spec.2.2.2.2.2.1, spec.2.1, spec.2.2.1, ?_⟩
  rw [spec.2.2.1]
  exact List.length_filter_le _ _

/-- C10 witness: a feed whose only trip has no origin station index — the
trip is consumed (counters reach one) but never becomes active. -/
theorem claim10_witness :
    ((orphanState.updateSimulation 1 1001).state.currentTripIndex =
      orphanState.currentTripIndex +
        (orphanState.dueSegment (tickDate orphanTrip (tickSimTime orphanState 1 1001))).length ∧
    (orphanState.updateSimulation 1 1001).state.totalTripsStarted =
      orphanState.totalTripsStarted +
        (orphanState.dueSegment (tickDate orphanTrip (tickSimTime orphanState 1 1001))).length ∧
    (getStats (orphanState.updateSimulation 1 1001).state).totalTripsStarted =
      orphanState.totalTripsStarted +
        (orphanState.dueSegment (tickDate orphanTrip (tickSimTime orphanState 1 1001))).length ∧
    (orphanState.updateSimulation 1 1001).result.tripsStarted =
      (orphanState.dueSegment (tickDate orphanTrip (tickSimTime orphanState 1 1001))).length ∧
    (orphanState.updateSimulation 1 1001).started =
      (orphanState.dueSegment
        (tickDate orphanTrip (tickSimTime orphanState 1 1001))).filter
        (canStartTrip orphanState) ∧
    (orphanState.updateSimulation 1 1001).started.length ≤
      (orphanState.dueSegment (tickDate orphanTrip (tickSimTime orphanState 1 1001))).length) ∧
    (orphanState.updateSimulation 1 1001).started = [] ∧
    (orphanState.updateSimulation 1 1001).result.tripsStarted = 1 ∧
    (orphanState.updateSimulation 1 1001).state.activeTrips = [] ∧
    (getStats (orphanState.updateSimulation 1 1001).state).totalTripsStarted = 1 :=
  ⟨claim10_counts_consumed orphanState 1 1001 orphanTrip [] (by decide) (by decide),
   by decide, by decide, by decide, by decide⟩

end CitiBike
